import Mathlib

/-!
Verification of the candidate-to-role matching subsystem of the HR recruiting
platform: the eligibility gate (`backend/routers/applications.py`), the
rule-based skill matcher and match aggregator (`backend/services/cv_matching.py`),
and the vector store (`backend/services/cv_faiss_store.py`,
`backend/services/ai_service.py`).

The Python code is shallowly embedded: scores are exact rationals (the source
uses IEEE floats; all concrete values used here are exactly representable),
Python string operations are modelled over ASCII (`lower`, `strip`), database
rows are explicit structures, and a Python exception escaping a function is an
`Except.error`.
-/

set_option maxRecDepth 10000

deriving instance DecidableEq for Except

namespace Space42

/-- Model of Python `str.lower()` (ASCII range). -/
def pyLower (s : String) : String :=
  String.mk (s.data.map Char.toLower)

/-- Python whitespace characters stripped by `str.strip()` (ASCII range). -/
def pySpace (c : Char) : Bool :=
  c = ' ' || c = '\t' || c = '\n' || c = '\r' || c = '\x0b' || c = '\x0c'

/-- Model of Python `str.strip()`: drop leading and trailing whitespace. -/
def pyStrip (s : String) : String :=
  String.mk (((s.data.dropWhile pySpace).reverse.dropWhile pySpace).reverse)

/-- The normalization `s.lower().strip()` applied to each skill by
`check_eligibility` in `backend/routers/applications.py`. -/
def normSkill (s : String) : String :=
  pyStrip (pyLower s)

/-- Model of the Python substring test `a in b` on strings:
`a` occurs contiguously in `b`. -/
def charsInfix (a : List Char) : List Char → Bool
  | [] => a.isEmpty
  | c :: t => a.isPrefixOf (c :: t) || charsInfix a t

/-- `pyIn a b` models the Python expression `a in b` for strings. -/
def pyIn (a b : String) : Bool :=
  charsInfix a.data b.data

/-- Result record of `check_eligibility` (`backend/routers/applications.py`,
keys `eligible`, `matched_skills`, `missing_skills`, `explanation`). -/
structure EligibilityResult where
  eligible : Bool
  matched_skills : List String
  missing_skills : List String
  explanation : String
deriving Repr, DecidableEq

/-- Embedding of `check_eligibility(cv_skills, job_non_negotiable)` from
`backend/routers/applications.py` (lines 96-130), on list inputs.  The
source's `if not cv_skills: cv_skills = []` guards are the identity on lists
(they matter only for `None`/non-list inputs, handled by
`check_eligibility_py` below).  The source builds `matched`/`missing` in one
loop over `job_non_negotiable`; the two order-preserving filters below are
that loop. -/
def check_eligibility (cv_skills job_non_negotiable : List String) : EligibilityResult :=
  let cv_skills_lower := cv_skills.map normSkill
  let matched := job_non_negotiable.filter (fun skill => normSkill skill ∈ cv_skills_lower)
  let missing := job_non_negotiable.filter (fun skill => ¬ normSkill skill ∈ cv_skills_lower)
  let is_eligible := missing.length = 0
  let explanation :=
    if is_eligible then "All required skills matched"
    else "Missing required skills: " ++ String.intercalate ", " missing
  { eligible := is_eligible
    matched_skills := matched
    missing_skills := missing
    explanation := explanation }

/-! ## Rule-based skill matcher (`backend/services/cv_matching.py`) -/

/-- Round-half-to-even on rationals (the tie-breaking rule of Python's
`round`). -/
def roundHalfEven (q : ℚ) : ℤ :=
  let f := ⌊q⌋
  let r := q - f
  if r < 1/2 then f
  else if r > 1/2 then f + 1
  else if 2 ∣ f then f else f + 1

/-- Model of Python `round(x, 2)` over exact rationals. -/
def pyRound2 (q : ℚ) : ℚ :=
  (roundHalfEven (q * 100) : ℚ) / 100

/-- Model of Python `f"{x:.1f}"` formatting over exact rationals:
one digit after the decimal point, ties to even. -/
def fmtQ1 (q : ℚ) : String :=
  let n := roundHalfEven (q * 10)
  let sign := if n < 0 then "-" else ""
  let m := n.natAbs
  sign ++ toString (m / 10) ++ "." ++ toString (m % 10)

/-- The fuzzy per-skill test of `calculate_match_score`
(`backend/services/cv_matching.py` line 37):
`any(cs in skill or skill in cs for cs in candidate_skills_lower)` —
substring containment in either direction, on lowercased labels. -/
def fuzzyHit (candidate_skills_lower : List String) (skill_lower : String) : Bool :=
  candidate_skills_lower.any (fun cs => pyIn cs skill_lower || pyIn skill_lower cs)

/-- The tuple returned by `calculate_match_score`
(`score, reason, matched_non_negotiable, matched_preferred, missing_non_negotiable`). -/
structure MatchScoreOut where
  score : ℚ
  reason : String
  matched_non_negotiable : List String
  matched_preferred : List String
  missing_non_negotiable : List String
deriving Repr, DecidableEq

/-- Embedding of `calculate_match_score` (`backend/services/cv_matching.py`
lines 11-86).  `years_exp` is the `years_of_experience` entry of the
`candidate_experience` dict (default 0 supplied by the caller).  Note the
source lowercases each label but does NOT strip whitespace.  The `reason`
f-string is rendered with rational `toString`; it coincides with Python's
rendering for integer values (no claim depends on this string). -/
def calculate_match_score (candidate_skills non_negotiable_skills good_to_have_skills : List String)
    (years_exp : ℚ) : MatchScoreOut :=
  let candidate_skills_lower := candidate_skills.map pyLower
  let non_negotiable_lower := non_negotiable_skills.map pyLower
  let good_to_have_lower := good_to_have_skills.map pyLower
  let matching_non_negotiable := (non_negotiable_lower.filter (fuzzyHit candidate_skills_lower)).length
  let non_negotiable_score : ℚ :=
    if !non_negotiable_skills.isEmpty
    then ((matching_non_negotiable : ℚ) / (non_negotiable_skills.length : ℚ)) * 50
    else 0
  let matching_good_to_have := (good_to_have_lower.filter (fuzzyHit candidate_skills_lower)).length
  let good_to_have_score : ℚ :=
    if !good_to_have_skills.isEmpty
    then ((matching_good_to_have : ℚ) / (good_to_have_skills.length : ℚ)) * 30
    else 0
  let experience_score : ℚ := min (years_exp / 10 * 20) 20
  let total_score := non_negotiable_score + good_to_have_score + experience_score
  let matched_non_negotiable :=
    non_negotiable_skills.filter (fun skill => fuzzyHit candidate_skills_lower (pyLower skill))
  let missing_non_negotiable :=
    non_negotiable_skills.filter (fun skill => !fuzzyHit candidate_skills_lower (pyLower skill))
  let matched_preferred :=
    good_to_have_skills.filter (fun skill => fuzzyHit candidate_skills_lower (pyLower skill))
  let reason :=
    "Matched " ++ toString matching_non_negotiable ++ "/" ++ toString non_negotiable_skills.length
      ++ " required skills, " ++ toString matching_good_to_have ++ "/"
      ++ toString good_to_have_skills.length ++ " preferred skills, "
      ++ toString years_exp ++ " years of experience"
  { score := total_score
    reason := reason
    matched_non_negotiable := matched_non_negotiable
    matched_preferred := matched_preferred
    missing_non_negotiable := missing_non_negotiable }

/-! ## Stored skill-list shapes and the `json.loads` coercion -/

/-- A stored skill-list column value: either a proper list of strings or a
raw string (the shapes the source guards for with `isinstance(x, str)`).
An absent key (`role.get(..., [])`) is `flist []`. -/
inductive SkillField where
  | fstr (s : String)
  | flist (l : List String)
deriving Repr, DecidableEq

/-- Whitespace accepted between JSON tokens. -/
def jsonWs (c : Char) : Bool :=
  c = ' ' || c = '\t' || c = '\n' || c = '\r'

/-- Skip JSON whitespace. -/
def skipWs (cs : List Char) : List Char :=
  cs.dropWhile jsonWs

/-- Parse the remainder of a JSON string literal, after its opening quote:
returns the decoded characters and the rest of the input after the closing
quote; `none` on malformed input. -/
def parseStrLit : List Char → Option (List Char × List Char)
  | [] => none
  | '"' :: rest => some ([], rest)
  | '\\' :: rest =>
      match rest with
      | [] => none
      | e :: rest2 =>
        match (match e with
               | '"' => some '"'
               | '\\' => some '\\'
               | '/' => some '/'
               | 'n' => some '\n'
               | 't' => some '\t'
               | 'r' => some '\r'
               | 'b' => some (Char.ofNat 8)
               | 'f' => some (Char.ofNat 12)
               | _ => none) with
        | none => none
        | some c =>
          match parseStrLit rest2 with
          | none => none
          | some (s, r) => some (c :: s, r)
  | c :: rest =>
      match parseStrLit rest with
      | none => none
      | some (s, r) => some (c :: s, r)

/-- Parse the comma-separated items of a non-empty JSON array of strings
(input positioned after `[`); fuel bounds the recursion by the input
length. -/
def parseItemsGo : ℕ → List Char → Option (List String × List Char)
  | 0, _ => none
  | fuel + 1, cs =>
    match skipWs cs with
    | '"' :: rest =>
      match parseStrLit rest with
      | none => none
      | some (s, r) =>
        match skipWs r with
        | ',' :: r2 =>
          match parseItemsGo fuel r2 with
          | none => none
          | some (items, r3) => some (String.mk s :: items, r3)
        | ']' :: r2 => some ([String.mk s], r2)
        | _ => none
    | _ => none

/-- Model of Python `json.loads` restricted to the shape the skill columns
hold: a JSON array of (escape-simple) strings.  Syntactically malformed
input is a parse error, modelling the `json.JSONDecodeError` that
`json.loads` raises and that the callers do not catch.  Valid non-array
JSON (a quoted scalar, an object, a number), which `json.loads` would
accept and hand to the caller as a non-list value, is outside this model
and also mapped to an error; no claim's verdict rests on such inputs. -/
def parseJsonStringList (s : String) : Except String (List String) :=
  match skipWs s.data with
  | '[' :: rest =>
    match skipWs rest with
    | ']' :: tail => if (skipWs tail).isEmpty then .ok [] else .error "Extra data"
    | _ =>
      match parseItemsGo (s.length + 1) rest with
      | none => .error "Expecting value"
      | some (items, r) => if (skipWs r).isEmpty then .ok items else .error "Extra data"
  | _ => .error "Expecting value"

/-- The coercion applied to role skill columns in `find_matching_roles`
(`cv_matching.py` lines 147-150), `add_role_to_vector_store`
(`cv_faiss_store.py` lines 203-206) and `create_application`
(`applications.py` lines 205-206):
`if isinstance(x, str): x = json.loads(x) if x else []`.
A malformed JSON string makes the whole caller raise (`Except.error`). -/
def coerceSkills : SkillField → Except String (List String)
  | .flist l => .ok l
  | .fstr s => if s.isEmpty then .ok [] else parseJsonStringList s

/-! ## Embedding provider (`backend/services/ai_service.py`) and FAISS store
(`backend/services/cv_faiss_store.py`) -/

/-- Model of Python `s.replace(old, new)` for single-character `old`/`new`,
as used by `get_embedding` (`text.replace("\n", " ")`). -/
def pyReplaceChar (s : String) (old new : Char) : String :=
  String.mk (s.data.map (fun c => if c = old then new else c))

/-- Embedding of `get_embedding` (`backend/services/ai_service.py` lines
40-54).  The external FastEmbed model is the `provider` parameter; a raised
provider exception is its `Except.error`.  The text is cleaned
(`replace("\n", " ").strip()`); an empty cleaned text short-circuits to a
384-dimensional zero vector without calling the provider; otherwise the
provider's result (or error) is returned unchanged. -/
def get_embedding (provider : String → Except String (List ℚ)) (text : String) :
    Except String (List ℚ) :=
  let text := pyStrip (pyReplaceChar text '\n' ' ')
  if text.isEmpty then .ok (List.replicate 384 0)
  else provider text

/-- An embedded chunk of the FAISS store: a `langchain` `Document` (content
plus the metadata keys the source sets) together with its embedding vector. -/
structure Chunk where
  content : String
  meta_type : String
  role_id : Option String
  role_title : Option String
  candidate_id : Option String
  embedding : List ℚ
deriving Repr, DecidableEq

/-- Squared L2 distance between two vectors, the score FAISS's
`IndexFlatL2` reports for a chunk. -/
def l2sq (u v : List ℚ) : ℚ :=
  (List.zipWith (fun a b => (a - b) ^ 2) u v).sum

/-- Stable insertion into a list of (chunk, distance) pairs ascending by
distance: earlier elements stay first on ties, matching FAISS's
index-order tie-break. -/
def insertAsc (x : Chunk × ℚ) : List (Chunk × ℚ) → List (Chunk × ℚ)
  | [] => [x]
  | y :: ys => if x.2 ≤ y.2 then x :: y :: ys else y :: insertAsc x ys

/-- Stable ascending sort by distance. -/
def sortAsc : List (Chunk × ℚ) → List (Chunk × ℚ)
  | [] => []
  | x :: xs => insertAsc x (sortAsc xs)

/-- Model of `vectorstore.similarity_search_with_score(query, k=k,
filter={"type": ftype})` in LangChain's FAISS wrapper: FAISS first returns
the `fetch_k = 20` (the default) nearest chunks overall by squared-L2
distance, the metadata filter is applied to those, and the first `k`
survivors are returned — so tag-matching chunks outside the 20 nearest
overall are invisible. -/
def similarity_search_with_score (store : List Chunk) (queryVec : List ℚ) (k : ℕ)
    (ftype : String) : List (Chunk × ℚ) :=
  ((((sortAsc (store.map (fun c => (c, l2sq queryVec c.embedding)))).take 20).filter
    (fun p => p.1.meta_type == ftype)).take k)

/-- One entry of the list returned by `match_candidate_to_roles`
(keys `role_id`, `role_title`, `match_score`, `reason`). -/
structure SemMatch where
  role_id : Option String
  role_title : Option String
  match_score : ℚ
  reason : String
deriving Repr, DecidableEq

/-- Embedding of `match_candidate_to_roles` (`backend/services/cv_faiss_store.py`
lines 235-276).  `storeRes` is the outcome of `get_cv_vector_store()` (outside
the `try`, so its error propagates); `embedRes` is the outcome of embedding the
query text inside the `try`, so an embedding failure is caught and the function
returns `[]`.  Each returned score is `round(1/(1+distance)*100, 2)`. -/
def match_candidate_to_roles (storeRes : Except String (List Chunk))
    (embedRes : Except String (List ℚ)) (k : ℕ) : Except String (List SemMatch) :=
  match storeRes with
  | .error e => .error e
  | .ok store =>
    match embedRes with
    | .error _ => .ok []
    | .ok queryVec =>
        .ok ((similarity_search_with_score store queryVec k "role").map (fun p =>
          { role_id := p.1.role_id
            role_title := p.1.role_title
            match_score := pyRound2 (1 / (1 + p.2) * 100)
            reason := "Semantic match based on resume embeddings." }))

/-- The text splitter (`RecursiveCharacterTextSplitter`, chunk size 1000,
overlap 100): a text that fits in one window is a single chunk (exactly the
splitter's behaviour); longer texts are cut into overlapping 1000-character
windows stepping by 900 (the source's splitter places boundaries at
separators, which the spec says is immaterial; only the window/overlap
bounds matter).  The recursion is fuelled by the text length. -/
def chunkWindowsGo : ℕ → List Char → List (List Char)
  | 0, _ => []
  | fuel + 1, cs =>
      if cs.length ≤ 1000 then [cs]
      else cs.take 1000 :: chunkWindowsGo fuel (cs.drop 900)

/-- Split a text into chunk contents; the empty text yields no chunks. -/
def splitText (s : String) : List String :=
  if s.isEmpty then [] else (chunkWindowsGo (s.data.length + 1) s.data).map String.mk

/-- A job-role row as read from the `job_roles` table (only the columns the
matching subsystem reads; display-only passthrough columns such as
`location`, `work_type`, `salary_max`, `currency` are omitted).  `department`
and `description` are `none` when the column is absent. -/
structure Role where
  id : String
  title : String
  department : Option String
  description : Option String
  non_negotiable_skills : SkillField
  preferred_skills : SkillField
deriving Repr, DecidableEq

/-- The canonical role text block built by `add_role_to_vector_store`
(`cv_faiss_store.py` lines 208-214). -/
def buildRoleContent (job : Role) (non_negotiable preferred : List String) : String :=
  "Role: " ++ job.title ++ "\n" ++
  "Department: " ++ job.department.getD "Not specified" ++ "\n" ++
  "Description: " ++ job.description.getD "" ++ "\n" ++
  "Required Skills: " ++ String.intercalate ", " non_negotiable ++ "\n" ++
  "Preferred Skills: " ++ String.intercalate ", " preferred ++ "\n"

/-- Embedding of `add_role_to_vector_store` (`cv_faiss_store.py` lines
191-232): coerce the two skill columns (a malformed JSON string raises),
render the canonical text block, split it, embed each chunk with the
external `embed` provider, and append the new chunks to the store.  No
existing chunk is removed. -/
def add_role_to_vector_store (embed : String → List ℚ) (store : List Chunk)
    (job : Role) : Except String (List Chunk) :=
  match coerceSkills job.non_negotiable_skills with
  | .error e => .error e
  | .ok non_negotiable =>
    match coerceSkills job.preferred_skills with
    | .error e => .error e
    | .ok preferred =>
      let content := buildRoleContent job non_negotiable preferred
      let chunks := (splitText content).map (fun c =>
        { content := c
          meta_type := "role"
          role_id := some job.id
          role_title := some job.title
          candidate_id := none
          embedding := embed c })
      .ok (store ++ chunks)

/-- Number of chunks in the store tagged to a given role id. -/
def countForRole (store : List Chunk) (roleId : String) : ℕ :=
  (store.filter (fun c => c.role_id == some roleId)).length

/-! ## Match aggregator (`find_matching_roles`, `backend/services/cv_matching.py`) -/

/-- The parsed-resume data `find_matching_roles` reads:
`parsed_data.get("skills", {}).get("technical", [])` and
`parsed_data.get("years_of_experience", 0)` (defaults applied). -/
structure ParsedData where
  technical : List String
  years_of_experience : ℚ
deriving Repr, DecidableEq

/-- The per-role record appended to `matched_roles` by `find_matching_roles`
(display-only passthrough columns `department`, `location`, `work_type`,
`salary_max`, `currency` omitted).  In the semantic-only branch with a hit the
source copies the raw `non_negotiable_skills` column into
`missing_non_negotiable_skills` without coercion, so that field is a
`SkillField`. -/
structure MatchResult where
  role_id : String
  role_title : String
  match_score : ℚ
  reason : String
  semantic_score : Option ℚ
  rule_based_score : Option ℚ
  matched_non_negotiable_skills : List String
  matched_preferred_skills : List String
  missing_non_negotiable_skills : SkillField
  has_all_required_skills : Bool
  is_eligible : Bool
deriving Repr, DecidableEq

/-- Lookup in the Python dict comprehension
`{m["role_id"]: m for m in semantic_matches}` followed by `.get(role_id)`:
the LAST entry with the given key wins. -/
def dictLast (sems : List SemMatch) (roleId : String) : Option SemMatch :=
  sems.reverse.find? (fun m => m.role_id == some roleId)

/-- The combination step of `find_matching_roles` (lines 163-170): 40%
semantic + 60% rule-based when a semantic hit exists for the role, else the
rule-based score alone. -/
def combinedScore (sems : List SemMatch) (roleId : String) (ruleScore : ℚ) : ℚ :=
  match dictLast sems roleId with
  | some m => m.match_score * (4 / 10) + ruleScore * (6 / 10)
  | none => ruleScore

/-- The record the parsed-data branch of `find_matching_roles` (lines
139-190) appends for one role, given the two coerced skill lists. -/
def roleRowVal (sems : List SemMatch) (pd : ParsedData) (role : Role)
    (non_negotiable good_to_have : List String) : MatchResult :=
  let res := calculate_match_score pd.technical non_negotiable good_to_have
    pd.years_of_experience
  let has_all_required := res.missing_non_negotiable.length = 0
  let combined := combinedScore sems role.id res.score
  let reason :=
    match dictLast sems role.id with
    | some m => "Semantic: " ++ fmtQ1 m.match_score ++ "%, Rule-based: " ++ fmtQ1 res.score
        ++ "% - " ++ res.reason
    | none => res.reason
  { role_id := role.id
    role_title := role.title
    match_score := pyRound2 combined
    reason := reason
    semantic_score := (dictLast sems role.id).map (fun m => m.match_score)
    rule_based_score := some res.score
    matched_non_negotiable_skills := res.matched_non_negotiable
    matched_preferred_skills := res.matched_preferred
    missing_non_negotiable_skills := .flist res.missing_non_negotiable
    has_all_required_skills := has_all_required
    is_eligible := has_all_required && combined ≥ 50 }

/-- The per-role step of the parsed-data branch: coerce the two skill
columns (a malformed JSON string propagates as an exception), then build the
row. -/
def roleRowParsed (sems : List SemMatch) (pd : ParsedData) (role : Role) :
    Except String MatchResult :=
  match coerceSkills role.non_negotiable_skills with
  | .error e => .error e
  | .ok non_negotiable =>
  match coerceSkills role.preferred_skills with
  | .error e => .error e
  | .ok good_to_have => .ok (roleRowVal sems pd role non_negotiable good_to_have)

/-- The per-role record of the no-parsed-data branch of `find_matching_roles`
(lines 195-241): a semantic hit yields a semantic-only record whose
`has_all_required_skills` is hard-coded `False` and whose `is_eligible` is
`match_score >= 50`; otherwise a zero record with reason
"No CV data for matching" (this arm coerces the skill column, so a malformed
JSON string raises here too). -/
def roleRowNoParsed (sems : List SemMatch) (role : Role) : Except String MatchResult :=
  match dictLast sems role.id with
  | some m => .ok
      { role_id := role.id
        role_title := role.title
        match_score := pyRound2 m.match_score
        reason := m.reason
        semantic_score := some m.match_score
        rule_based_score := none
        matched_non_negotiable_skills := []
        matched_preferred_skills := []
        missing_non_negotiable_skills := role.non_negotiable_skills
        has_all_required_skills := false
        is_eligible := m.match_score ≥ 50 }
  | none =>
      match coerceSkills role.non_negotiable_skills with
      | .error e => .error e
      | .ok non_negotiable => .ok
        { role_id := role.id
          role_title := role.title
          match_score := 0
          reason := "No CV data for matching"
          semantic_score := none
          rule_based_score := none
          matched_non_negotiable_skills := []
          matched_preferred_skills := []
          missing_non_negotiable_skills := .flist non_negotiable
          has_all_required_skills := false
          is_eligible := false }

/-- The source's `for role in active_roles: matched_roles.append(...)` loop:
map a fallible row builder over the roles, stopping at the first raised
exception. -/
def mapExcept (f : α → Except ε β) : List α → Except ε (List β)
  | [] => .ok []
  | a :: l =>
      match f a with
      | .error e => .error e
      | .ok b =>
        match mapExcept f l with
        | .error e => .error e
        | .ok bs => .ok (b :: bs)

/-- Stable insertion keeping earlier elements first on equal keys, matching
Python's stable `list.sort(key=..., reverse=True)`. -/
def insertDesc (x : MatchResult) : List MatchResult → List MatchResult
  | [] => [x]
  | y :: ys => if x.match_score ≥ y.match_score then x :: y :: ys else y :: insertDesc x ys

/-- Stable sort by `match_score` descending
(`matched_roles.sort(key=lambda x: x["match_score"], reverse=True)`). -/
def sortDesc : List MatchResult → List MatchResult
  | [] => []
  | x :: xs => insertDesc x (sortDesc xs)

/-- The semantic-matching step of `find_matching_roles` (lines 116-129):
empty when `resume_text` is absent or empty (falsy); otherwise the result of
`match_candidate_to_roles(resume_text, k=min(5, len(active_roles)))`, with
the `try/except` mapping a propagated error (e.g. a vector-store load
failure) to the empty list. -/
def semsFor (active_roles : List Role) (storeRes : Except String (List Chunk))
    (resume_text : Option String) (embedRes : Except String (List ℚ)) : List SemMatch :=
  let hasResume := match resume_text with
    | some s => !s.isEmpty
    | none => false
  if hasResume then
    match match_candidate_to_roles storeRes embedRes (min 5 active_roles.length) with
    | .ok l => l
    | .error _ => []
  else []

/-- The two per-role loops of `find_matching_roles` (parsed-data branch
lines 139-190, no-parsed-data branch lines 195-241). -/
def rowsFor (sems : List SemMatch) (parsed_data : Option ParsedData)
    (active_roles : List Role) : Except String (List MatchResult) :=
  match parsed_data with
  | some pd => mapExcept (roleRowParsed sems pd) active_roles
  | none => mapExcept (roleRowNoParsed sems) active_roles

/-- Embedding of `find_matching_roles` (`backend/services/cv_matching.py`
lines 89-246).  `active_roles` is the `job_roles` query result (rows with
`is_active = True`); `storeRes`/`embedRes` are the outcomes of the vector
store load and of embedding `resume_text` (the external calls inside
`match_candidate_to_roles`).  An empty `active_roles` returns `[]` early;
otherwise every active role yields one row (parsed or no-parsed branch) and
the rows are stable-sorted by score descending. -/
def find_matching_roles (active_roles : List Role) (storeRes : Except String (List Chunk))
    (resume_text : Option String) (parsed_data : Option ParsedData)
    (embedRes : Except String (List ℚ)) : Except String (List MatchResult) :=
  if active_roles.isEmpty then .ok []
  else
    match rowsFor (semsFor active_roles storeRes resume_text embedRes) parsed_data active_roles with
    | .error e => .error e
    | .ok rows => .ok (sortDesc rows)

/-! ## The two eligibility call paths (`backend/routers/applications.py`) -/

/-- A Python value stored under `parsed_data["skills"]` or in a skill
column, as far as the call paths inspect it: a string, a list of strings,
or a dict from category names to skill lists (the parser's
`{"technical": [...], "soft": [...]}` shape). -/
inductive PyVal where
  | vstr (s : String)
  | vlist (l : List String)
  | vdict (entries : List (String × List String))
deriving Repr, DecidableEq

/-- Python truthiness of such a value (`if not x: x = []`). -/
def pyTruthy : PyVal → Bool
  | .vstr s => !s.isEmpty
  | .vlist l => !l.isEmpty
  | .vdict e => !e.isEmpty

/-- What Python iteration over the value yields, as exercised by
`[s.lower().strip() for s in cv_skills]` and
`for skill in job_non_negotiable` inside `check_eligibility`: a string
iterates its characters (as 1-character strings), a list its elements, a
dict its keys. -/
def pyIterStrs : PyVal → List String
  | .vstr s => s.data.map (fun c => String.mk [c])
  | .vlist l => l
  | .vdict e => e.map Prod.fst

/-- `check_eligibility` as invoked on arbitrarily shaped Python values: the
`if not x` guards replace falsy values with `[]`, then the loop runs over
whatever iteration yields. -/
def check_eligibility_py (cv_skills job_non_negotiable : PyVal) : EligibilityResult :=
  let cv := if pyTruthy cv_skills then cv_skills else .vlist []
  let job := if pyTruthy job_non_negotiable then job_non_negotiable else .vlist []
  check_eligibility (pyIterStrs cv) (pyIterStrs job)

/-- The candidate-skill extraction of the application-creation path
(`create_application`, `applications.py` lines 196-201):
`skills_data.get('technical', [])` when the stored `skills` value is a
dict, the value itself when it is a list, else `[]`. -/
def creationCvSkills : PyVal → List String
  | .vdict e => ((e.find? (fun p => p.1 == "technical")).map Prod.snd).getD []
  | .vlist l => l
  | .vstr _ => []

/-- The application-creation eligibility check (`applications.py` lines
196-208): candidate skills extracted from the nested dict, job skills
JSON-coerced (a malformed JSON string raises), then `check_eligibility`. -/
def creationEligibility (skillsVal : PyVal) (jobNN : SkillField) :
    Except String EligibilityResult :=
  match coerceSkills jobNN with
  | .error e => .error e
  | .ok nn => .ok (check_eligibility (creationCvSkills skillsVal) nn)

/-- The on-demand re-check path (`recheck_eligibility`, `applications.py`
lines 819-822): the stored `skills` value and the raw
`non_negotiable_skills` column are passed to `check_eligibility`
uncoerced. -/
def recheckEligibility (skillsVal : PyVal) (jobNN : PyVal) : EligibilityResult :=
  check_eligibility_py skillsVal jobNN

/-! ## Concrete fixtures for witnesses and counterexamples -/

/-- An active role with no skill requirements. -/
def roleA : Role := ⟨"1", "Role A", none, none, .flist [], .flist []⟩

/-- A second active role with no skill requirements. -/
def roleB : Role := ⟨"2", "Role B", none, none, .flist [], .flist []⟩

/-- A third active role with no skill requirements. -/
def roleC : Role := ⟨"3", "Role C", none, none, .flist [], .flist []⟩

/-- An active role requiring exactly the skill `python`. -/
def rolePython : Role := ⟨"1", "Backend Engineer", none, none, .flist ["python"], .flist []⟩

/-- A parsed resume whose only technical skill is `pythonista`. -/
def pdPythonista : ParsedData := ⟨["pythonista"], 0⟩

/-- A parsed resume with no technical skills and no experience. -/
def pdEmpty : ParsedData := ⟨[], 0⟩

/-- One indexed chunk of `rolePython`, at embedding `[0]`. -/
def chunkPy : Chunk :=
  ⟨"Role: Backend Engineer", "role", some "1", some "Backend Engineer", none, [0]⟩

/-- A role whose `non_negotiable_skills` column holds the malformed JSON
string `"Python, SQL"`. -/
def roleBadJson : Role := ⟨"9", "Bad Row", none, none, .fstr "Python, SQL", .flist []⟩

/-- A stored parsed-data `skills` value in the nested dict shape. -/
def skillsDictPython : PyVal := .vdict [("technical", ["Python"])]

/-- A small role for the vector-store idempotence check (its canonical text
fits in a single chunk window). -/
def jobShort : Role := ⟨"r1", "Data Analyst", none, none, .flist ["SQL"], .flist []⟩

/-- A trivial embedding provider for store fixtures (the claims checked on
the store count chunks; the vectors are irrelevant there). -/
def embed0 : String → List ℚ := fun _ => [0]

/-- Two chunks of role `r1` (embeddings `[0]` and `[1]`) and one of role
`r2` (embedding `[5]`). -/
def chunkR1a : Chunk := ⟨"alpha", "role", some "r1", some "Title 1", none, [0]⟩

/-- Second chunk of role `r1`. -/
def chunkR1b : Chunk := ⟨"beta", "role", some "r1", some "Title 1", none, [1]⟩

/-- Chunk of role `r2`. -/
def chunkR2 : Chunk := ⟨"gamma", "role", some "r2", some "Title 2", none, [5]⟩

/-- An always-failing embedding provider. -/
def providerDown : String → Except String (List ℚ) := fun _ => .error "down"

/-- A resume-tagged chunk (so a store holding only it has zero role-tagged
chunks). -/
def chunkResume : Chunk := ⟨"resume body", "resume", none, none, some "c1", [0]⟩

/-- The row `find_matching_roles` emits for a role with an empty coerced
required list when neither CV signal is available. -/
def mkNoDataRow (roleId roleTitle : String) : MatchResult :=
  { role_id := roleId
    role_title := roleTitle
    match_score := 0
    reason := "No CV data for matching"
    semantic_score := none
    rule_based_score := none
    matched_non_negotiable_skills := []
    matched_preferred_skills := []
    missing_non_negotiable_skills := .flist []
    has_all_required_skills := false
    is_eligible := false }

/-! ## Theorems -/

/-- C1: for all skill lists A (candidate) and B (required), `check_eligibility`
returns `eligible = true` iff every skill of B, after normalization
(lowercase, strip), appears exactly (list membership, not substring) in the
normalized A; `B = []` always yields `eligible = true`; and `eligible` equals
`missing_skills.isEmpty`. -/
theorem check_eligibility_exact_iff (A B : List String) :
    ((check_eligibility A B).eligible = true ↔
      ∀ b ∈ B, normSkill b ∈ A.map normSkill) ∧
    (check_eligibility A []).eligible = true ∧
    (check_eligibility A B).eligible = (check_eligibility A B).missing_skills.isEmpty := by
  have hlen : ∀ (l : List String), (decide (l.length = 0)) = l.isEmpty := by
    intro l; cases l <;> simp
  refine ⟨?_, by simp [check_eligibility], ?_⟩
  · simp [check_eligibility, List.filter_eq_nil_iff]
  · simp only [check_eligibility]
    exact hlen _

/-- The matched/missing/preferred output lists of `calculate_match_score` are
the order-preserving filters of the original (non-normalized) input lists by
the fuzzy lowercase-substring test. -/
theorem calculate_match_score_lists (cand nn gt : List String) (y : ℚ) :
    (calculate_match_score cand nn gt y).matched_non_negotiable
        = nn.filter (fun sk => fuzzyHit (cand.map pyLower) (pyLower sk)) ∧
    (calculate_match_score cand nn gt y).missing_non_negotiable
        = nn.filter (fun sk => !fuzzyHit (cand.map pyLower) (pyLower sk)) ∧
    (calculate_match_score cand nn gt y).matched_preferred
        = gt.filter (fun sk => fuzzyHit (cand.map pyLower) (pyLower sk)) :=
  ⟨rfl, rfl, rfl⟩

/-- The score of `calculate_match_score` is the weighted sum
`matched_required/total_required*50 + matched_preferred/total_preferred*30 +
min(years/10*20, 20)`, an empty required or preferred list contributing `0`
for its term. -/
theorem calculate_match_score_score_eq (cand nn gt : List String) (y : ℚ) :
    (calculate_match_score cand nn gt y).score
        = (if nn.isEmpty then 0 else
            ((calculate_match_score cand nn gt y).matched_non_negotiable.length : ℚ)
              / (nn.length : ℚ) * 50)
          + (if gt.isEmpty then 0 else
            ((calculate_match_score cand nn gt y).matched_preferred.length : ℚ)
              / (gt.length : ℚ) * 30)
          + min (y / 10 * 20) 20 := by
  have hmap : ∀ (l : List String) (p : String → Bool),
      ((l.map pyLower).filter p).length = (l.filter (fun x => p (pyLower x))).length := by
    intro l p
    induction l with
    | nil => rfl
    | cons a l ih =>
      by_cases h : p (pyLower a) <;> simp [h, ih]
  simp only [calculate_match_score, hmap]
  cases nn <;> cases gt <;> simp

/-- C5 counterexample: the source lowercases but does not trim, so the claim's
"lowercase and trim" normalization is wrong.  With candidate `[" python"]` and
required `["python "]`, the two labels are equal after the claimed
normalization (so the claim predicts a match, `missingRequired = []`, score
`50`), but the code leaves the whitespace, neither string is a substring of
the other, and the skill is reported missing with score `0`. -/
theorem calculate_match_score_no_trim_counterexample :
    normSkill " python" = normSkill "python " ∧
    (calculate_match_score [" python"] ["python "] [] 0).matched_non_negotiable = [] ∧
    (calculate_match_score [" python"] ["python "] [] 0).missing_non_negotiable = ["python "] ∧
    (calculate_match_score [" python"] ["python "] [] 0).score = 0 := by
  refine ⟨by decide, by decide, by decide, ?_⟩
  rw [calculate_match_score_score_eq]
  have h : (calculate_match_score [" python"] ["python "] [] 0).matched_non_negotiable = [] := by
    decide
  rw [h]
  norm_num

/-- C5 (amended): `calculate_match_score` normalizes labels by lowercasing
only (no trim); a required/preferred skill is matched when it and some
candidate skill are in substring containment (either direction) after
lowercasing; the score is
`(matchedRequired/totalRequired)*50 + (matchedPreferred/totalPreferred)*30 +
min(yearsExperience/10*20, 20)` with an empty required or preferred set
contributing `0`; output lists preserve the original skill text; and the
scenario required=`["Python","SQL"]`, preferred=`["Docker"]`,
candidate=`["python","docker","excel"]`, years=5 gives score 65 with
matchedRequired=`["Python"]`, missingRequired=`["SQL"]`,
matchedPreferred=`["Docker"]`. -/
theorem calculate_match_score_formula_and_scenario (cand nn gt : List String) (y : ℚ) :
    ((calculate_match_score cand nn gt y).matched_non_negotiable
        = nn.filter (fun sk => fuzzyHit (cand.map pyLower) (pyLower sk)) ∧
      (calculate_match_score cand nn gt y).missing_non_negotiable
        = nn.filter (fun sk => !fuzzyHit (cand.map pyLower) (pyLower sk)) ∧
      (calculate_match_score cand nn gt y).matched_preferred
        = gt.filter (fun sk => fuzzyHit (cand.map pyLower) (pyLower sk)) ∧
      (calculate_match_score cand nn gt y).score
        = (if nn.isEmpty then 0 else
            ((calculate_match_score cand nn gt y).matched_non_negotiable.length : ℚ)
              / (nn.length : ℚ) * 50)
          + (if gt.isEmpty then 0 else
            ((calculate_match_score cand nn gt y).matched_preferred.length : ℚ)
              / (gt.length : ℚ) * 30)
          + min (y / 10 * 20) 20) ∧
    ((calculate_match_score ["python", "docker", "excel"] ["Python", "SQL"] ["Docker"] 5).score = 65 ∧
      (calculate_match_score ["python", "docker", "excel"] ["Python", "SQL"] ["Docker"] 5).matched_non_negotiable
        = ["Python"] ∧
      (calculate_match_score ["python", "docker", "excel"] ["Python", "SQL"] ["Docker"] 5).missing_non_negotiable
        = ["SQL"] ∧
      (calculate_match_score ["python", "docker", "excel"] ["Python", "SQL"] ["Docker"] 5).matched_preferred
        = ["Docker"]) := by
  obtain ⟨h1, h2, h3⟩ := calculate_match_score_lists cand nn gt y
  refine ⟨⟨h1, h2, h3, calculate_match_score_score_eq cand nn gt y⟩, ?_, by decide, by decide, by decide⟩
  rw [calculate_match_score_score_eq]
  have hm : (calculate_match_score ["python", "docker", "excel"] ["Python", "SQL"] ["Docker"] 5).matched_non_negotiable
      = ["Python"] := by decide
  have hp : (calculate_match_score ["python", "docker", "excel"] ["Python", "SQL"] ["Docker"] 5).matched_preferred
      = ["Docker"] := by decide
  rw [hm, hp]
  norm_num

/-! ## Support lemmas -/

theorem mapExcept_ok_length {α β ε : Type} (f : α → Except ε β) :
    ∀ (l : List α) (out : List β), mapExcept f l = .ok out → out.length = l.length := by
  intro l
  induction l with
  | nil => intro out h; cases h; rfl
  | cons a l ih =>
    intro out h
    simp only [mapExcept] at h
    cases hfa : f a with
    | error e => rw [hfa] at h; simp [Except.bind] at h
    | ok b =>
      rw [hfa] at h
      cases hrest : mapExcept f l with
      | error e => rw [hrest] at h; simp [Except.bind] at h
      | ok bs =>
        rw [hrest] at h
        simp [Except.bind, Except.pure] at h
        subst h
        simp [ih bs hrest]

theorem mapExcept_ok_mem {α β ε : Type} (f : α → Except ε β) :
    ∀ (l : List α) (out : List β), mapExcept f l = .ok out →
      ∀ b ∈ out, ∃ a ∈ l, f a = .ok b := by
  intro l
  induction l with
  | nil => intro out h; cases h; intro b hb; cases hb
  | cons a l ih =>
    intro out h
    simp only [mapExcept] at h
    cases hfa : f a with
    | error e => rw [hfa] at h; simp [Except.bind] at h
    | ok b0 =>
      rw [hfa] at h
      cases hrest : mapExcept f l with
      | error e => rw [hrest] at h; simp [Except.bind] at h
      | ok bs =>
        rw [hrest] at h
        simp [Except.bind, Except.pure] at h
        subst h
        intro b hb
        rcases List.mem_cons.mp hb with rfl | hb
        · exact ⟨a, by simp, hfa⟩
        · rcases ih bs hrest b hb with ⟨a', ha', hfa'⟩
          exact ⟨a', by simp [ha'], hfa'⟩

theorem mapExcept_all_ok {α β ε : Type} (f : α → Except ε β) :
    ∀ (l : List α), (∀ a ∈ l, ∃ b, f a = .ok b) →
      ∃ out, mapExcept f l = .ok out := by
  intro l
  induction l with
  | nil => intro _; exact ⟨[], rfl⟩
  | cons a l ih =>
    intro h
    rcases h a (by simp) with ⟨b, hb⟩
    rcases ih (fun a' ha' => h a' (by simp [ha'])) with ⟨bs, hbs⟩
    exact ⟨b :: bs, by simp [mapExcept, hb, hbs, Except.bind, Except.pure]⟩

theorem insertDesc_perm (x : MatchResult) (l : List MatchResult) :
    (insertDesc x l).Perm (x :: l) := by
  induction l with
  | nil => exact List.Perm.refl _
  | cons y ys ih =>
    simp only [insertDesc]
    by_cases h : x.match_score ≥ y.match_score
    · simp [h]
    · simp only [h, if_false]
      exact (List.Perm.cons y ih).trans (List.Perm.swap x y ys)

theorem sortDesc_perm (l : List MatchResult) : (sortDesc l).Perm l := by
  induction l with
  | nil => exact List.Perm.refl _
  | cons x xs ih =>
    exact (insertDesc_perm x (sortDesc xs)).trans (List.Perm.cons x ih)

theorem sortDesc_length (l : List MatchResult) : (sortDesc l).length = l.length :=
  (sortDesc_perm l).length_eq

theorem sortDesc_mem (r : MatchResult) (l : List MatchResult) :
    r ∈ sortDesc l ↔ r ∈ l :=
  (sortDesc_perm l).mem_iff

theorem rowsFor_ok_length (sems : List SemMatch) (pdo : Option ParsedData)
    (roles : List Role) (rows : List MatchResult)
    (h : rowsFor sems pdo roles = .ok rows) : rows.length = roles.length := by
  cases pdo with
  | some pd => exact mapExcept_ok_length _ _ _ h
  | none => exact mapExcept_ok_length _ _ _ h

theorem find_matching_roles_ok_shape (active_roles : List Role)
    (storeRes : Except String (List Chunk)) (resume_text : Option String)
    (parsed_data : Option ParsedData) (embedRes : Except String (List ℚ))
    (out : List MatchResult)
    (h : find_matching_roles active_roles storeRes resume_text parsed_data embedRes = .ok out) :
    (active_roles = [] ∧ out = []) ∨
      ∃ rows,
        rowsFor (semsFor active_roles storeRes resume_text embedRes) parsed_data active_roles
          = .ok rows ∧ out = sortDesc rows := by
  unfold find_matching_roles at h
  cases he : active_roles.isEmpty with
  | true =>
    rw [he] at h
    simp at h
    exact .inl ⟨List.isEmpty_iff.mp he, h⟩
  | false =>
    rw [he] at h
    simp only [Bool.false_eq_true, if_false] at h
    cases hm : rowsFor (semsFor active_roles storeRes resume_text embedRes) parsed_data
        active_roles with
    | error e => rw [hm] at h; cases h
    | ok rows =>
      rw [hm] at h
      simp only [Except.ok.injEq] at h
      exact .inr ⟨rows, rfl, h.symm⟩

/-- C8: whenever `find_matching_roles` returns normally, its output has
exactly one entry per active role — for every combination of resume text
present/absent and parsed skills present/absent, and whatever the semantic
search produced. -/
theorem find_matching_roles_length (active_roles : List Role)
    (storeRes : Except String (List Chunk)) (resume_text : Option String)
    (parsed_data : Option ParsedData) (embedRes : Except String (List ℚ))
    (out : List MatchResult)
    (h : find_matching_roles active_roles storeRes resume_text parsed_data embedRes = .ok out) :
    out.length = active_roles.length := by
  rcases find_matching_roles_ok_shape _ _ _ _ _ _ h with ⟨hr, ho⟩ | ⟨rows, hm, ho⟩
  · simp [hr, ho]
  · subst ho
    rw [sortDesc_length]
    exact rowsFor_ok_length _ _ _ _ hm

/-- Witness for C8: three active roles with no CV data at all produce
exactly three result rows. -/
theorem find_matching_roles_length_witness :
    find_matching_roles [roleA, roleB, roleC] (.ok []) none none (.ok [])
      = .ok [mkNoDataRow "1" "Role A", mkNoDataRow "2" "Role B", mkNoDataRow "3" "Role C"] ∧
    ([mkNoDataRow "1" "Role A", mkNoDataRow "2" "Role B", mkNoDataRow "3" "Role C"] :
      List MatchResult).length = 3 :=
  ⟨by decide, find_matching_roles_length [roleA, roleB, roleC] (.ok []) none none (.ok []) _
    (by decide)⟩

theorem roleRowParsed_fields (sems : List SemMatch) (pd : ParsedData) (role : Role)
    (nn gt : List String)
    (hnn : coerceSkills role.non_negotiable_skills = .ok nn)
    (hgt : coerceSkills role.preferred_skills = .ok gt) :
    ∃ r, roleRowParsed sems pd role = .ok r ∧
      r.has_all_required_skills
        = decide ((calculate_match_score pd.technical nn gt
            pd.years_of_experience).missing_non_negotiable.length = 0) ∧
      r.rule_based_score
        = some (calculate_match_score pd.technical nn gt pd.years_of_experience).score ∧
      r.is_eligible = (r.has_all_required_skills &&
        decide (combinedScore sems role.id
          (calculate_match_score pd.technical nn gt pd.years_of_experience).score ≥ 50)) := by
  refine ⟨roleRowVal sems pd role nn gt, ?_, rfl, rfl, rfl⟩
  unfold roleRowParsed
  rw [hnn, hgt]

theorem roleRowNoParsed_fields (sems : List SemMatch) (role : Role) (r : MatchResult)
    (h : roleRowNoParsed sems role = .ok r) :
    r.has_all_required_skills = false ∧
    r.is_eligible = (match r.semantic_score with
      | some s => decide (s ≥ 50)
      | none => false) := by
  unfold roleRowNoParsed at h
  cases hd : dictLast sems role.id with
  | some m =>
    rw [hd] at h
    cases h
    exact ⟨rfl, rfl⟩
  | none =>
    rw [hd] at h
    cases hc : coerceSkills role.non_negotiable_skills with
    | error e => rw [hc] at h; cases h
    | ok nn => rw [hc] at h; cases h; exact ⟨rfl, rfl⟩

theorem missing_len_zero_iff (cand nn gt : List String) (y : ℚ) :
    (decide ((calculate_match_score cand nn gt y).missing_non_negotiable.length = 0) = true)
      ↔ ∀ sk ∈ nn, fuzzyHit (cand.map pyLower) (pyLower sk) = true := by
  have h := (calculate_match_score_lists cand nn gt y).2.1
  rw [h]
  simp [List.length_eq_zero, List.filter_eq_nil_iff]

/-- Any member of the parsed-data branch output of `find_matching_roles`
comes from some active role via `roleRowParsed`, with both skill columns
successfully coerced. -/
theorem find_parsed_member (roles : List Role) (storeRes : Except String (List Chunk))
    (resume_text : Option String) (pd : ParsedData) (embedRes : Except String (List ℚ))
    (out : List MatchResult) (r : MatchResult)
    (h : find_matching_roles roles storeRes resume_text (some pd) embedRes = .ok out)
    (hr : r ∈ out) :
    ∃ role ∈ roles, ∃ nn gt,
      coerceSkills role.non_negotiable_skills = .ok nn ∧
      coerceSkills role.preferred_skills = .ok gt ∧
      r.has_all_required_skills
        = decide ((calculate_match_score pd.technical nn gt
            pd.years_of_experience).missing_non_negotiable.length = 0) ∧
      r.rule_based_score
        = some (calculate_match_score pd.technical nn gt pd.years_of_experience).score ∧
      r.is_eligible = (r.has_all_required_skills &&
        decide (combinedScore (semsFor roles storeRes resume_text embedRes) role.id
          (calculate_match_score pd.technical nn gt pd.years_of_experience).score ≥ 50)) := by
  rcases find_matching_roles_ok_shape _ _ _ _ _ _ h with ⟨hroles, hout⟩ | ⟨rows, hm, hout⟩
  · subst hout; cases hr
  · subst hout
    rw [sortDesc_mem] at hr
    rcases mapExcept_ok_mem _ _ _ hm r hr with ⟨role, hrole, hrow⟩
    refine ⟨role, hrole, ?_⟩
    revert hrow
    unfold roleRowParsed
    cases hnn : coerceSkills role.non_negotiable_skills with
    | error e => intro hrow; cases hrow
    | ok nn =>
      cases hgt : coerceSkills role.preferred_skills with
      | error e => intro hrow; cases hrow
      | ok gt =>
        intro hrow
        have hval : roleRowVal (semsFor roles storeRes resume_text embedRes) pd role nn gt = r :=
          Except.ok.inj hrow
        subst hval
        exact ⟨nn, gt, rfl, rfl, rfl, rfl, rfl⟩

/-- Any member of the no-parsed-data branch output of `find_matching_roles`
has `has_all_required_skills = false` and `is_eligible` determined only by
the semantic score. -/
theorem find_noparsed_member (roles : List Role) (storeRes : Except String (List Chunk))
    (resume_text : Option String) (embedRes : Except String (List ℚ))
    (out : List MatchResult) (r : MatchResult)
    (h : find_matching_roles roles storeRes resume_text none embedRes = .ok out)
    (hr : r ∈ out) :
    r.has_all_required_skills = false ∧
    r.is_eligible = (match r.semantic_score with
      | some s => decide (s ≥ 50)
      | none => false) := by
  rcases find_matching_roles_ok_shape _ _ _ _ _ _ h with ⟨hroles, hout⟩ | ⟨rows, hm, hout⟩
  · subst hout; cases hr
  · subst hout
    rw [sortDesc_mem] at hr
    rcases mapExcept_ok_mem _ _ _ hm r hr with ⟨role, hrole, hrow⟩
    exact roleRowNoParsed_fields _ role r hrow

/-- Concrete evaluation: one role requiring `python`, parsed skills
`["pythonista"]`, no resume text. -/
theorem find_single_parsed_eval :
    find_matching_roles [rolePython] (.ok []) none (some pdPythonista) (.ok [])
      = .ok [roleRowVal [] pdPythonista rolePython ["python"] []] := rfl

/-- The semantic score of a chunk at distance 0 is 100. -/
theorem score_at_zero_distance : pyRound2 (1 / (1 + l2sq [0] [0]) * 100) = 100 := by
  norm_num [pyRound2, roundHalfEven, l2sq]

/-- C2 counterexample.  Run 1 (parsed skills `["pythonista"]`, role requiring
`python`, no resume): the produced row has `has_all_required_skills = true`
although the Eligibility Gate (exact match after normalization) rejects —
so the flag is derived from the fuzzy substring matcher, not from the gate
logic of section 4.2.  Run 2 (resume text only, semantic hit at distance 0):
the produced row has `is_eligible = true` while
`has_all_required_skills = false` — refuting
`is_eligible = has_all_required_skills AND combined >= 50` in the
no-parsed-skills combination. -/
theorem find_matching_roles_gate_dual_counterexample :
    (find_matching_roles [rolePython] (.ok []) none (some pdPythonista) (.ok [])).map
        (List.map (fun r => r.has_all_required_skills)) = .ok [true] ∧
    (check_eligibility ["pythonista"] ["python"]).eligible = false ∧
    (find_matching_roles [rolePython] (.ok [chunkPy]) (some "resume text") none (.ok [0])).map
        (List.map (fun r => (r.has_all_required_skills, r.is_eligible))) = .ok [(false, true)] := by
  refine ⟨by decide, by decide, ?_⟩
  have h1 : semsFor [rolePython] (.ok [chunkPy]) (some "resume text") (.ok [0])
      = [⟨some "1", some "Backend Engineer", pyRound2 (1 / (1 + l2sq [0] [0]) * 100),
          "Semantic match based on resume embeddings."⟩] := rfl
  unfold find_matching_roles
  rw [h1, score_at_zero_distance]
  decide

/-- C2 (amended): in the parsed-data branch, `has_all_required_skills` holds
iff every coerced required skill passes the FUZZY lowercase-substring test of
the rule-based matcher (not the exact-match Eligibility Gate), and
`is_eligible = has_all_required_skills AND combined >= 50` where `combined`
is the 40/60 semantic/rule blend; in the no-parsed-data branch
`has_all_required_skills` is always `false` and `is_eligible` is
`semantic >= 50` when a semantic hit exists, else `false`, independent of
`has_all_required_skills`. -/
theorem find_matching_roles_gate_dual_amended :
    (∀ (roles : List Role) (storeRes : Except String (List Chunk))
        (resume_text : Option String) (pd : ParsedData)
        (embedRes : Except String (List ℚ)) (out : List MatchResult) (r : MatchResult),
        find_matching_roles roles storeRes resume_text (some pd) embedRes = .ok out →
        r ∈ out →
        ∃ role ∈ roles, ∃ nn gt,
          coerceSkills role.non_negotiable_skills = .ok nn ∧
          coerceSkills role.preferred_skills = .ok gt ∧
          (r.has_all_required_skills = true ↔
            ∀ sk ∈ nn, fuzzyHit (pd.technical.map pyLower) (pyLower sk) = true) ∧
          r.is_eligible = (r.has_all_required_skills &&
            decide (combinedScore (semsFor roles storeRes resume_text embedRes) role.id
              (calculate_match_score pd.technical nn gt pd.years_of_experience).score ≥ 50))) ∧
    (∀ (roles : List Role) (storeRes : Except String (List Chunk))
        (resume_text : Option String) (embedRes : Except String (List ℚ))
        (out : List MatchResult) (r : MatchResult),
        find_matching_roles roles storeRes resume_text none embedRes = .ok out →
        r ∈ out →
        r.has_all_required_skills = false ∧
        r.is_eligible = (match r.semantic_score with
          | some s => decide (s ≥ 50)
          | none => false)) := by
  constructor
  · intro roles storeRes resume_text pd embedRes out r h hr
    rcases find_parsed_member roles storeRes resume_text pd embedRes out r h hr with
      ⟨role, hrole, nn, gt, hnn, hgt, hha, hrb, hel⟩
    refine ⟨role, hrole, nn, gt, hnn, hgt, ?_, hel⟩
    rw [hha]
    exact missing_len_zero_iff pd.technical nn gt pd.years_of_experience
  · intro roles storeRes resume_text embedRes out r h hr
    exact find_noparsed_member roles storeRes resume_text embedRes out r h hr

/-- Witness for C2 (amended), instantiated at the single-role parsed run. -/
theorem find_matching_roles_gate_dual_amended_witness :
    ∃ role ∈ [rolePython], ∃ nn gt,
      coerceSkills role.non_negotiable_skills = .ok nn ∧
      coerceSkills role.preferred_skills = .ok gt ∧
      ((roleRowVal [] pdPythonista rolePython ["python"] []).has_all_required_skills = true ↔
        ∀ sk ∈ nn, fuzzyHit (pdPythonista.technical.map pyLower) (pyLower sk) = true) ∧
      (roleRowVal [] pdPythonista rolePython ["python"] []).is_eligible
        = ((roleRowVal [] pdPythonista rolePython ["python"] []).has_all_required_skills &&
          decide (combinedScore (semsFor [rolePython] (.ok []) none (.ok [])) role.id
            (calculate_match_score pdPythonista.technical nn gt
              pdPythonista.years_of_experience).score ≥ 50)) :=
  find_matching_roles_gate_dual_amended.1 [rolePython] (.ok []) none pdPythonista (.ok []) _ _
    find_single_parsed_eval (List.mem_singleton.mpr rfl)

/-- C3 counterexample: with an empty required set, the candidate's technical
SkillSet is trivially a superset of the role's required SkillSet (the exact
gate itself confirms eligibility), yet `find_matching_roles` marks the row
`is_eligible = false` because the combined score 0 is below the 50
threshold — so the flag IS derived from the numeric score. -/
theorem find_matching_roles_superset_counterexample :
    (check_eligibility pdEmpty.technical []).eligible = true ∧
    (find_matching_roles [roleA] (.ok []) none (some pdEmpty) (.ok [])).map
        (List.map (fun r => r.is_eligible)) = .ok [false] := by
  refine ⟨by decide, ?_⟩
  have hscore : (calculate_match_score pdEmpty.technical [] []
      pdEmpty.years_of_experience).score = 0 := by
    rw [calculate_match_score_score_eq]
    norm_num [pdEmpty]
  have hrow : (roleRowVal [] pdEmpty roleA [] []).is_eligible = false := by
    show ((roleRowVal [] pdEmpty roleA [] []).has_all_required_skills &&
      decide (combinedScore [] roleA.id (calculate_match_score pdEmpty.technical [] []
        pdEmpty.years_of_experience).score ≥ 50)) = false
    rw [hscore]
    decide
  rw [show find_matching_roles [roleA] (.ok []) none (some pdEmpty) (.ok [])
      = .ok [roleRowVal [] pdEmpty roleA [] []] from rfl]
  simp [Except.map, hrow]

/-- C3 (amended): a row's `eligible` flag is not the superset invariant: in
the parsed-data branch `is_eligible = true` iff every coerced required skill
passes the fuzzy lowercase-substring test AND the combined score is at least
50 (so it does depend on the numeric score); in the no-parsed-data branch a
row with no semantic hit is never eligible, regardless of the candidate's
skills. -/
theorem find_matching_roles_eligible_amended :
    (∀ (roles : List Role) (storeRes : Except String (List Chunk))
        (resume_text : Option String) (pd : ParsedData)
        (embedRes : Except String (List ℚ)) (out : List MatchResult) (r : MatchResult),
        find_matching_roles roles storeRes resume_text (some pd) embedRes = .ok out →
        r ∈ out →
        ∃ role ∈ roles, ∃ nn gt,
          coerceSkills role.non_negotiable_skills = .ok nn ∧
          coerceSkills role.preferred_skills = .ok gt ∧
          (r.is_eligible = true ↔
            (∀ sk ∈ nn, fuzzyHit (pd.technical.map pyLower) (pyLower sk) = true) ∧
              combinedScore (semsFor roles storeRes resume_text embedRes) role.id
                (calculate_match_score pd.technical nn gt pd.years_of_experience).score ≥ 50)) ∧
    (∀ (roles : List Role) (storeRes : Except String (List Chunk))
        (resume_text : Option String) (embedRes : Except String (List ℚ))
        (out : List MatchResult) (r : MatchResult),
        find_matching_roles roles storeRes resume_text none embedRes = .ok out →
        r ∈ out → r.semantic_score = none → r.is_eligible = false) := by
  constructor
  · intro roles storeRes resume_text pd embedRes out r h hr
    rcases find_parsed_member roles storeRes resume_text pd embedRes out r h hr with
      ⟨role, hrole, nn, gt, hnn, hgt, hha, hrb, hel⟩
    refine ⟨role, hrole, nn, gt, hnn, hgt, ?_⟩
    rw [hel, Bool.and_eq_true, hha]
    constructor
    · rintro ⟨h1, h2⟩
      exact ⟨(missing_len_zero_iff _ _ _ _).mp h1, of_decide_eq_true h2⟩
    · rintro ⟨h1, h2⟩
      exact ⟨(missing_len_zero_iff _ _ _ _).mpr h1, decide_eq_true h2⟩
  · intro roles storeRes resume_text embedRes out r h hr hnone
    obtain ⟨_, hel⟩ := find_noparsed_member roles storeRes resume_text embedRes out r h hr
    rw [hel, hnone]

/-- Witness for C3 (amended), instantiated at the single-role parsed run. -/
theorem find_matching_roles_eligible_amended_witness :
    ∃ role ∈ [rolePython], ∃ nn gt,
      coerceSkills role.non_negotiable_skills = .ok nn ∧
      coerceSkills role.preferred_skills = .ok gt ∧
      ((roleRowVal [] pdPythonista rolePython ["python"] []).is_eligible = true ↔
        (∀ sk ∈ nn, fuzzyHit (pdPythonista.technical.map pyLower) (pyLower sk) = true) ∧
          combinedScore (semsFor [rolePython] (.ok []) none (.ok [])) role.id
            (calculate_match_score pdPythonista.technical nn gt
              pdPythonista.years_of_experience).score ≥ 50) :=
  find_matching_roles_eligible_amended.1 [rolePython] (.ok []) none pdPythonista (.ok []) _ _
    find_single_parsed_eval (List.mem_singleton.mpr rfl)

/-- C4: the two eligibility call paths disagree on identical stored data.
With the CV's `parsed_data["skills"]` stored as the parser's nested dict
`{"technical": ["Python"]}` and the role requiring `["Python"]`, the
application-creation path extracts `skills["technical"]` and reports
eligible; the re-check path passes the dict itself to `check_eligibility`,
whose comprehension iterates the dict's KEYS (`["technical"]`), so it
reports ineligible with `missing = ["Python"]`. -/
theorem eligibility_paths_divergence :
    (creationEligibility skillsDictPython (.flist ["Python"])).map (fun r => r.eligible)
      = .ok true ∧
    (recheckEligibility skillsDictPython (.vlist ["Python"])).eligible = false ∧
    (recheckEligibility skillsDictPython (.vlist ["Python"])).missing_skills = ["Python"] := by
  refine ⟨by decide, by decide, by decide⟩

/-- C6: `add_role_to_vector_store` deletes nothing before adding — calling it
twice with the same role doubles that role's chunk count (1 chunk after the
first call, 2 after the second) instead of leaving it unchanged. -/
theorem add_role_twice_duplicates :
    (add_role_to_vector_store embed0 [] jobShort).map (fun s => countForRole s "r1")
      = .ok 1 ∧
    (match add_role_to_vector_store embed0 [] jobShort with
      | .ok s1 => (add_role_to_vector_store embed0 s1 jobShort).map (fun s => countForRole s "r1")
      | .error e => .error e) = .ok 2 := by
  refine ⟨by decide, by decide⟩

/-- C10 counterexample: (1) in the re-check path a string-shaped
`non_negotiable_skills` column is NOT parsed-or-emptied: `"[]"` is iterated
character-wise, producing required skills `["[", "]"]` and an ineligible
verdict, while the claimed coercion (`json.loads`) yields `[]` and hence
eligible; (2) in the matching path a malformed JSON string
(`"Python, SQL"`) makes `find_matching_roles` raise instead of tolerantly
coercing. -/
theorem skill_shape_counterexample :
    (recheckEligibility (.vlist []) (.vstr "[]")).eligible = false ∧
    (recheckEligibility (.vlist []) (.vstr "[]")).missing_skills = ["[", "]"] ∧
    parseJsonStringList "[]" = .ok [] ∧
    (check_eligibility [] []).eligible = true ∧
    find_matching_roles [roleBadJson] (.ok []) none (some pdEmpty) (.ok [])
      = .error "Expecting value" := by
  refine ⟨by decide, by decide, by decide, by decide, by decide⟩

/-- C10 (amended): list-shaped columns pass through and an empty string
coerces to `[]`, but a non-empty string column is JSON-parsed in the
matching/creation paths — propagating a parse error for malformed JSON —
while the re-check path never coerces: a non-empty string is iterated
character-wise and a non-empty dict iterates to its keys; falsy values
(`None`, `[]`, `""`) default to the empty list. -/
theorem skill_shape_amended :
    (∀ l, coerceSkills (.flist l) = .ok l) ∧
    (coerceSkills (.fstr "") = .ok []) ∧
    (∀ s, s.isEmpty = false → coerceSkills (.fstr s) = parseJsonStringList s) ∧
    (∀ cv s, s.isEmpty = false →
        recheckEligibility cv (.vstr s)
          = check_eligibility (pyIterStrs (if pyTruthy cv then cv else .vlist []))
              (s.data.map (fun c => String.mk [c]))) ∧
    (∀ e job, e ≠ [] →
        recheckEligibility (.vdict e) job
          = check_eligibility (e.map Prod.fst)
              (pyIterStrs (if pyTruthy job then job else .vlist []))) := by
  refine ⟨fun l => rfl, rfl, ?_, ?_, ?_⟩
  · intro s hs
    show (if s.isEmpty = true then Except.ok ([] : List String) else parseJsonStringList s)
        = parseJsonStringList s
    rw [hs]
    simp
  · intro cv s hs
    unfold recheckEligibility check_eligibility_py
    have ht : pyTruthy (.vstr s) = true := by
      show (!s.isEmpty) = true
      rw [hs]
      rfl
    rw [ht]
    rfl
  · intro e job he
    unfold recheckEligibility check_eligibility_py
    have ht : pyTruthy (.vdict e) = true := by
      unfold pyTruthy
      cases e with
      | nil => exact absurd rfl he
      | cons a t => rfl
    rw [ht]
    rfl

/-- Witness for C10 (amended), at a JSON-array string, a string-shaped
re-check job column, and a dict-shaped cv skills value. -/
theorem skill_shape_amended_witness :
    coerceSkills (.fstr "[\"Python\"]") = parseJsonStringList "[\"Python\"]" ∧
    recheckEligibility (.vlist []) (.vstr "[]")
      = check_eligibility (pyIterStrs (if pyTruthy (.vlist []) then (.vlist []) else .vlist []))
          ("[]".data.map (fun c => String.mk [c])) ∧
    recheckEligibility (.vdict [("technical", ["Python"])]) (.vlist ["Python"])
      = check_eligibility ([("technical", ["Python"])].map Prod.fst)
          (pyIterStrs (if pyTruthy (.vlist ["Python"]) then (.vlist ["Python"]) else .vlist [])) :=
  ⟨skill_shape_amended.2.2.1 _ (by decide),
   skill_shape_amended.2.2.2.1 _ _ (by decide),
   skill_shape_amended.2.2.2.2 _ _ (by decide)⟩

theorem insertAsc_perm (x : Chunk × ℚ) (l : List (Chunk × ℚ)) :
    (insertAsc x l).Perm (x :: l) := by
  induction l with
  | nil => exact List.Perm.refl _
  | cons y ys ih =>
    simp only [insertAsc]
    by_cases h : x.2 ≤ y.2
    · simp [h]
    · simp only [h, if_false]
      exact (List.Perm.cons y ih).trans (List.Perm.swap x y ys)

theorem sortAsc_perm (l : List (Chunk × ℚ)) : (sortAsc l).Perm l := by
  induction l with
  | nil => exact List.Perm.refl _
  | cons x xs ih => exact (insertAsc_perm x (sortAsc xs)).trans (List.Perm.cons x ih)

theorem insertAsc_pairwise (x : Chunk × ℚ) (l : List (Chunk × ℚ))
    (h : l.Pairwise (fun p q => p.2 ≤ q.2)) :
    (insertAsc x l).Pairwise (fun p q => p.2 ≤ q.2) := by
  induction l with
  | nil => simp [insertAsc]
  | cons y ys ih =>
    simp only [insertAsc]
    by_cases hxy : x.2 ≤ y.2
    · rw [if_pos hxy]
      refine List.Pairwise.cons ?_ h
      intro z hz
      rcases List.mem_cons.mp hz with rfl | hz
      · exact hxy
      · exact le_trans hxy ((List.pairwise_cons.mp h).1 z hz)
    · rw [if_neg hxy]
      have h' := List.pairwise_cons.mp h
      refine List.Pairwise.cons ?_ (ih h'.2)
      intro z hz
      rcases List.mem_cons.mp ((insertAsc_perm x ys).mem_iff.mp hz) with rfl | hz2
      · exact le_of_not_le hxy
      · exact h'.1 z hz2

theorem sortAsc_sorted (l : List (Chunk × ℚ)) :
    (sortAsc l).Pairwise (fun p q => p.2 ≤ q.2) := by
  induction l with
  | nil => simp [sortAsc]
  | cons x xs ih => exact insertAsc_pairwise x _ ih

theorem getLast_q_cons {α : Type} (a : α) (l : List α) :
    (a :: l).getLast? = (l.getLast?).or (some a) := by
  induction l generalizing a with
  | nil => rfl
  | cons b t ih =>
    rw [List.getLast?_cons_cons, ih b]
    cases ht : t.getLast? with
    | none => rfl
    | some z => rfl

/-- A Python dict comprehension keyed on a list keeps the LAST entry per
key: `reverse.find?` equals the last element of the filtered list. -/
theorem find_q_reverse_eq_getLast_q_filter {α : Type} (p : α → Bool) (l : List α) :
    l.reverse.find? p = (l.filter p).getLast? := by
  induction l with
  | nil => rfl
  | cons a t ih =>
    rw [List.reverse_cons, List.find?_append, ih]
    by_cases hpa : p a = true
    · rw [List.filter_cons_of_pos hpa, getLast_q_cons]
      have : List.find? p [a] = some a := by
        simp [List.find?, hpa]
      rw [this]
    · rw [List.filter_cons_of_neg hpa]
      have : List.find? p [a] = none := by
        simp [List.find?, hpa]
      rw [this]
      cases (t.filter p).getLast? with
      | none => rfl
      | some z => rfl

/-- C9 counterexample: an embedding-provider failure is NOT propagated — the
search swallows it and returns `[]` (indistinguishable from "no matches"),
and `find_matching_roles` still returns a normal result list with the
semantic fields empty. -/
theorem provider_error_swallowed_counterexample :
    match_candidate_to_roles (.ok [chunkPy]) (.error "embedding provider failure") 5
      = .ok [] ∧
    (find_matching_roles [rolePython] (.ok [chunkPy]) (some "resume text") none
        (.error "embedding provider failure")).map
      (List.map (fun r => (r.semantic_score, r.match_score))) = .ok [(none, 0)] := by
  refine ⟨by decide, by decide⟩

/-- C9 (amended): `get_embedding` itself propagates provider errors and
substitutes the 384-dimensional zero vector only for an empty cleaned text;
but `match_candidate_to_roles` catches embedding errors and returns `[]`
rather than propagating; a search over a store with zero role-tagged chunks
returns `[]` rather than an error. -/
theorem embedding_error_handling_amended :
    (∀ (provider : String → Except String (List ℚ)) (text : String),
        (pyStrip (pyReplaceChar text '\n' ' ')).isEmpty = false →
        get_embedding provider text = provider (pyStrip (pyReplaceChar text '\n' ' '))) ∧
    (∀ (provider : String → Except String (List ℚ)) (text : String),
        (pyStrip (pyReplaceChar text '\n' ' ')).isEmpty = true →
        get_embedding provider text = .ok (List.replicate 384 0)) ∧
    (∀ (store : List Chunk) (qv : List ℚ) (k : ℕ),
        store.filter (fun c => c.meta_type == "role") = [] →
        match_candidate_to_roles (.ok store) (.ok qv) k = .ok []) ∧
    (∀ (store : List Chunk) (e : String) (k : ℕ),
        match_candidate_to_roles (.ok store) (.error e) k = .ok []) := by
  refine ⟨?_, ?_, ?_, fun store e k => rfl⟩
  · intro provider text h
    show (if (pyStrip (pyReplaceChar text '\n' ' ')).isEmpty = true
        then Except.ok (List.replicate 384 0)
        else provider (pyStrip (pyReplaceChar text '\n' ' ')))
      = provider (pyStrip (pyReplaceChar text '\n' ' '))
    rw [h]
    simp
  · intro provider text h
    show (if (pyStrip (pyReplaceChar text '\n' ' ')).isEmpty = true
        then Except.ok (List.replicate 384 0)
        else provider (pyStrip (pyReplaceChar text '\n' ' ')))
      = .ok (List.replicate 384 0)
    rw [h]
    simp
  · intro store qv k h
    show Except.ok ((((((sortAsc (store.map (fun c => (c, l2sq qv c.embedding)))).take 20).filter
        (fun p => p.1.meta_type == "role")).take k)).map (fun p =>
          ({ role_id := p.1.role_id
             role_title := p.1.role_title
             match_score := pyRound2 (1 / (1 + p.2) * 100)
             reason := "Semantic match based on resume embeddings." } : SemMatch)))
      = .ok ([] : List SemMatch)
    have hfil : (((sortAsc (store.map (fun c => (c, l2sq qv c.embedding)))).take 20).filter
        (fun p => p.1.meta_type == "role")) = [] := by
      rw [List.filter_eq_nil_iff]
      intro p hp
      have hp1 : p ∈ store.map (fun c => (c, l2sq qv c.embedding)) :=
        (sortAsc_perm _).mem_iff.mp (List.mem_of_mem_take hp)
      rcases List.mem_map.mp hp1 with ⟨c, hc, rfl⟩
      intro hmeta
      have hcf : c ∈ store.filter (fun c => c.meta_type == "role") :=
        List.mem_filter.mpr ⟨hc, by simpa using hmeta⟩
      rw [h] at hcf
      cases hcf
    rw [hfil]
    simp

/-- Witness for C9 (amended): a failing provider on non-empty text, the
zero-vector rule on whitespace text, and a store with only resume-tagged
chunks. -/
theorem embedding_error_handling_amended_witness :
    get_embedding providerDown "resume body"
      = providerDown (pyStrip (pyReplaceChar "resume body" '\n' ' ')) ∧
    get_embedding providerDown " \n " = .ok (List.replicate 384 0) ∧
    match_candidate_to_roles (.ok [chunkResume]) (.ok [0]) 3 = .ok [] ∧
    match_candidate_to_roles (.ok [chunkResume]) (.error "down") 3 = .ok [] :=
  ⟨embedding_error_handling_amended.1 providerDown "resume body" (by decide),
   embedding_error_handling_amended.2.1 providerDown " \n " (by decide),
   embedding_error_handling_amended.2.2.1 [chunkResume] [0] 3 (by decide),
   embedding_error_handling_amended.2.2.2 [chunkResume] "down" 3⟩

/-- C7 counterexample: with two chunks of role `r1` nearer to the query than
the sole chunk of role `r2`, a `k = 2` search returns TWO entries for `r1` —
the search does not deduplicate by owning id. -/
theorem search_no_dedup_counterexample :
    (match_candidate_to_roles (.ok [chunkR1a, chunkR1b, chunkR2]) (.ok [0]) 2).map
      (List.map (fun m => m.role_id)) = .ok [some "r1", some "r1"] := by
  have hmap :
      ([chunkR1a, chunkR1b, chunkR2].map (fun c => (c, l2sq [0] c.embedding)))
        = [(chunkR1a, 0), (chunkR1b, 1), (chunkR2, 25)] := by
    norm_num [l2sq, chunkR1a, chunkR1b, chunkR2]
  show (Except.ok ((((((sortAsc ([chunkR1a, chunkR1b, chunkR2].map
      (fun c => (c, l2sq [0] c.embedding)))).take 20).filter
      (fun p => p.1.meta_type == "role")).take 2)).map (fun p =>
        ({ role_id := p.1.role_id
           role_title := p.1.role_title
           match_score := pyRound2 (1 / (1 + p.2) * 100)
           reason := "Semantic match based on resume embeddings." } : SemMatch)))).map
      (List.map (fun m => m.role_id)) = .ok [some "r1", some "r1"]
  rw [hmap]
  have hs : sortAsc [(chunkR1a, (0:ℚ)), (chunkR1b, 1), (chunkR2, 25)]
      = [(chunkR1a, (0:ℚ)), (chunkR1b, 1), (chunkR2, 25)] := by
    show insertAsc (chunkR1a, (0:ℚ)) (insertAsc (chunkR1b, 1) (insertAsc (chunkR2, 25) [])) = _
    norm_num [insertAsc]
  rw [hs]
  decide

/-- C7 (amended): the search returns the nearest surviving role-tagged
chunks, in ascending-distance order, WITHOUT deduplicating by owning id:
the output has at most `k` entries; it is the image of a list of
(chunk, distance) pairs drawn from the store's role-tagged chunks with
their true squared-L2 distances, sorted nearest-first, each scored
`round(1/(1+distance)*100, 2)`; every role-tagged chunk of the store not
among the returned ones is at least as far from the query as every
returned chunk (FAISS fetches the 20 nearest overall before filtering, so
role chunks beyond those are omitted — but they are only ever farther).
Several entries may share one role id; the one-entry-per-role reduction
happens only in the caller's dict comprehension, which keeps the LAST
listed — i.e. farthest surviving — hit per role id. -/
theorem match_candidate_to_roles_nearest_spec :
    (∀ (store : List Chunk) (qv : List ℚ) (k : ℕ) (out : List SemMatch),
      match_candidate_to_roles (.ok store) (.ok qv) k = .ok out →
      out.length ≤ k ∧
      ∃ pairs : List (Chunk × ℚ),
        out = pairs.map (fun p =>
          ({ role_id := p.1.role_id
             role_title := p.1.role_title
             match_score := pyRound2 (1 / (1 + p.2) * 100)
             reason := "Semantic match based on resume embeddings." } : SemMatch)) ∧
        (∀ p ∈ pairs, p.1 ∈ store ∧ p.1.meta_type = "role" ∧ p.2 = l2sq qv p.1.embedding) ∧
        pairs.Pairwise (fun p q => p.2 ≤ q.2) ∧
        (∀ c ∈ store, c.meta_type = "role" → ¬ c ∈ pairs.map Prod.fst →
          ∀ p ∈ pairs, p.2 ≤ l2sq qv c.embedding)) ∧
    (∀ (sems : List SemMatch) (roleId : String),
      dictLast sems roleId = (sems.filter (fun m => m.role_id == some roleId)).getLast?) := by
  constructor
  · intro store qv k out h
    have hout : ((((sortAsc (store.map (fun c => (c, l2sq qv c.embedding)))).take 20).filter
        (fun p => p.1.meta_type == "role")).take k).map (fun p =>
          ({ role_id := p.1.role_id
             role_title := p.1.role_title
             match_score := pyRound2 (1 / (1 + p.2) * 100)
             reason := "Semantic match based on resume embeddings." } : SemMatch)) = out :=
      Except.ok.inj h
    subst hout
    constructor
    · rw [List.length_map, List.length_take]
      exact min_le_left _ _
    · refine ⟨(((sortAsc (store.map (fun c => (c, l2sq qv c.embedding)))).take 20).filter
        (fun p => p.1.meta_type == "role")).take k, rfl, ?_, ?_, ?_⟩
      · intro p hp
        have hpfil := List.mem_of_mem_take hp
        have hptake := List.mem_filter.mp hpfil
        have hpall : p ∈ sortAsc (store.map (fun c => (c, l2sq qv c.embedding))) :=
          List.mem_of_mem_take hptake.1
        have hpmap := (sortAsc_perm _).mem_iff.mp hpall
        rcases List.mem_map.mp hpmap with ⟨c, hc, rfl⟩
        exact ⟨hc, by simpa using hptake.2, rfl⟩
      · have hall := sortAsc_sorted (store.map (fun c => (c, l2sq qv c.embedding)))
        exact List.Pairwise.sublist
          (((List.take_sublist _ _).trans (List.filter_sublist _)).trans
            (List.take_sublist _ _)) hall
      · intro c hc hrole hnot p hp
        have hp0 : (c, l2sq qv c.embedding)
            ∈ sortAsc (store.map (fun c => (c, l2sq qv c.embedding))) :=
          (sortAsc_perm _).mem_iff.mpr (List.mem_map_of_mem _ hc)
        have hall := sortAsc_sorted (store.map (fun c => (c, l2sq qv c.embedding)))
        have hsplit := List.take_append_drop 20
          (sortAsc (store.map (fun c => (c, l2sq qv c.embedding))))
        have happ : (((sortAsc (store.map (fun c => (c, l2sq qv c.embedding)))).take 20
            ++ (sortAsc (store.map (fun c => (c, l2sq qv c.embedding)))).drop 20).Pairwise
            (fun p q => p.2 ≤ q.2)) := by
          rw [hsplit]
          exact hall
        have hdom1 := (List.pairwise_append.mp happ).2.2
        have hpfil := List.mem_of_mem_take hp
        have hpfetch := (List.mem_filter.mp hpfil).1
        rw [← hsplit] at hp0
        rcases List.mem_append.mp hp0 with hin | hin
        · have hptag : ((c, l2sq qv c.embedding).1.meta_type == "role") = true := by
            simpa using hrole
          have hinfil : (c, l2sq qv c.embedding) ∈
              ((sortAsc (store.map (fun c => (c, l2sq qv c.embedding)))).take 20).filter
                (fun p => p.1.meta_type == "role") :=
            List.mem_filter.mpr ⟨hin, hptag⟩
          have hfsorted : (((sortAsc (store.map (fun c => (c, l2sq qv c.embedding)))).take
              20).filter (fun p => p.1.meta_type == "role")).Pairwise
              (fun p q => p.2 ≤ q.2) :=
            List.Pairwise.sublist
              ((List.filter_sublist _).trans (List.take_sublist _ _)) hall
          have hsplit2 := List.take_append_drop k
            (((sortAsc (store.map (fun c => (c, l2sq qv c.embedding)))).take 20).filter
              (fun p => p.1.meta_type == "role"))
          have happ2 : (((((sortAsc (store.map (fun c => (c, l2sq qv c.embedding)))).take
              20).filter (fun p => p.1.meta_type == "role")).take k
              ++ ((((sortAsc (store.map (fun c => (c, l2sq qv c.embedding)))).take 20).filter
                (fun p => p.1.meta_type == "role")).drop k)).Pairwise
              (fun p q => p.2 ≤ q.2)) := by
            rw [hsplit2]
            exact hfsorted
          have hdom2 := (List.pairwise_append.mp happ2).2.2
          rw [← hsplit2] at hinfil
          rcases List.mem_append.mp hinfil with hin2 | hin2
          · exact absurd (List.mem_map_of_mem Prod.fst hin2) hnot
          · exact hdom2 p hp _ hin2
        · exact hdom1 p hpfetch _ hin
  · intro sems roleId
    exact find_q_reverse_eq_getLast_q_filter (fun m => m.role_id == some roleId) sems

/-- Witness for C7 (amended) on a one-chunk store with `k = 5`. -/
theorem match_candidate_to_roles_nearest_spec_witness :
    ([({ role_id := some "r1"
         role_title := some "Title 1"
         match_score := pyRound2 (1 / (1 + l2sq [0] chunkR1a.embedding) * 100)
         reason := "Semantic match based on resume embeddings." } : SemMatch)]).length ≤ 5 ∧
    ∃ pairs : List (Chunk × ℚ),
      [({ role_id := some "r1"
          role_title := some "Title 1"
          match_score := pyRound2 (1 / (1 + l2sq [0] chunkR1a.embedding) * 100)
          reason := "Semantic match based on resume embeddings." } : SemMatch)]
        = pairs.map (fun p =>
          ({ role_id := p.1.role_id
             role_title := p.1.role_title
             match_score := pyRound2 (1 / (1 + p.2) * 100)
             reason := "Semantic match based on resume embeddings." } : SemMatch)) ∧
      (∀ p ∈ pairs, p.1 ∈ [chunkR1a] ∧ p.1.meta_type = "role"
        ∧ p.2 = l2sq [0] p.1.embedding) ∧
      pairs.Pairwise (fun p q => p.2 ≤ q.2) ∧
      (∀ c ∈ [chunkR1a], c.meta_type = "role" → ¬ c ∈ pairs.map Prod.fst →
        ∀ p ∈ pairs, p.2 ≤ l2sq [0] c.embedding) :=
  match_candidate_to_roles_nearest_spec.1 [chunkR1a] [0] 5 _ rfl

end Space42
